import Mathlib

/-!
Shallow embedding of `lib/Support/Statistic.cpp` (the `llvm-csv` statistics
registry): the `Statistic` counter class, lazy registration into the
process-wide `StatisticInfo` registry, the sorted human-readable table
renderer `PrintStatistics`, and the CSV exporter `PrintStatisticsToCSV`.

Strings are modelled as `List Char` (C `strcmp` compares the UTF-8 bytes of
NUL-terminated strings; byte-wise lexicographic order on UTF-8 encodings
agrees with code-point-wise lexicographic order, and two encodings are equal
iff the code-point sequences are).  Machine-level mutation (the in-place
`std::stable_sort` of the registry vector, the `Initialized` flag) is made
explicit by returning the updated state.
-/

namespace LlvmCsv

/-- Model of C `strcmp` (byte-wise three-way comparison), as an `Ordering`:
`strcmp(a,b) < 0` becomes `.lt`, `== 0` becomes `.eq`, `> 0` becomes `.gt`. -/
def strcmp : List Char → List Char → Ordering
  | [], [] => .eq
  | [], _ :: _ => .lt
  | _ :: _, [] => .gt
  | a :: as, b :: bs =>
    if a.toNat < b.toNat then .lt
    else if b.toNat < a.toNat then .gt
    else strcmp as bs

/-- Model of one `llvm::Statistic` object: the name, description and variable
identifier it was constructed with (immutable), its unsigned `Value`, and the
`Initialized` flag set by `RegisterStatistic`.  Identity of distinct objects
sharing the same text is handled by the caller (the registry stores indices,
modelling the pointers stored in `StatisticInfo::Stats`). -/
structure Statistic where
  Name : List Char
  Desc : List Char
  VarName : List Char
  Value : Nat
  Initialized : Bool
deriving DecidableEq, Repr

/-- Model of `llvm::utostr` applied to `getValue()`: the decimal digit string
of an unsigned integer. -/
def utostr (n : Nat) : List Char :=
  Nat.toDigits 10 n

/-- The comparison lambda passed to `std::stable_sort` in
`PrintStatistics(raw_ostream&)`: primary key `strcmp` on names, secondary key
`strcmp` on descriptions; returns the strict `<`. -/
def statLt (LHS RHS : Statistic) : Bool :=
  match strcmp LHS.Name RHS.Name with
  | .eq => strcmp LHS.Desc RHS.Desc == .lt
  | Cmp => Cmp == .lt

/-- The non-strict order induced by `statLt`; `std::stable_sort` with a strict
comparator `lt` is the stable sort for `le a b := ¬ lt b a`. -/
def statLe (LHS RHS : Statistic) : Bool :=
  !statLt RHS LHS

/-- The three-way comparison underlying `statLt`: `strcmp` on the names, ties
broken by `strcmp` on the descriptions. -/
def lexCmp (a b : Statistic) : Ordering :=
  match strcmp a.Name b.Name with
  | .eq => strcmp a.Desc b.Desc
  | c => c

/-- The in-place `std::stable_sort(Stats.Stats.begin(), Stats.Stats.end(), ...)`
of `PrintStatistics(raw_ostream&)`: the unique stable sort for the comparator,
modelled by the (stable) `List.mergeSort` on the induced non-strict order. -/
def sortStats (Stats : List Statistic) : List Statistic :=
  Stats.mergeSort statLe

/-- The `MaxValLen` accumulation loop of `PrintStatistics(raw_ostream&)`:
starting from 0, take the maximum of the printed decimal widths of the
values. -/
def MaxValLen (Stats : List Statistic) : Nat :=
  Stats.foldl (fun M s => max M (utostr s.Value).length) 0

/-- The `MaxNameLen` accumulation loop of `PrintStatistics(raw_ostream&)`:
starting from 0, take the maximum of the `strlen`s of the names. -/
def MaxNameLen (Stats : List Statistic) : Nat :=
  Stats.foldl (fun M s => max M s.Name.length) 0

/-- Model of the `printf` conversion `%*u`: right-align in a field of width
`W`, padding on the left with spaces (no truncation if wider than `W`). -/
def padLeft (W : Nat) (s : List Char) : List Char :=
  List.replicate (W - s.length) ' ' ++ s

/-- Model of the `printf` conversion `%-*s`: left-align in a field of width
`W`, padding on the right with spaces (no truncation if wider than `W`). -/
def padRight (W : Nat) (s : List Char) : List Char :=
  s ++ List.replicate (W - s.length) ' '

/-- One row of the statistics table, `format("%*u %-*s - %s\n", MaxValLen,
Value, MaxNameLen, Name, Desc)`. -/
def statRow (MVL MNL : Nat) (s : Statistic) : List Char :=
  padLeft MVL (utostr s.Value) ++ [' '] ++ padRight MNL s.Name
    ++ [' ', '-', ' '] ++ s.Desc ++ ['\n']

/-- The banner line `"===" << std::string(73, '-') << "===\n"`. -/
def bannerLine : List Char :=
  "===".toList ++ List.replicate 73 '-' ++ "===\n".toList

/-- The table header line (26 spaces, then the collected-statistics marker). -/
def headerLine : List Char :=
  "                          ... Statistics Collected ...\n".toList

/-- Model of `llvm::PrintStatistics(raw_ostream &OS)`.  Input is the snapshot
of the registry vector `StatInfo->Stats`; the result is the text written to
`OS` together with the vector after the call (the `std::stable_sort` mutates
`Stats.Stats` in place, so the sorted vector is returned as the new registry
contents). -/
def PrintStatisticsOS (Stats : List Statistic) : List Char × List Statistic :=
  let MVL := MaxValLen Stats
  let MNL := MaxNameLen Stats
  let Sorted := sortStats Stats
  (bannerLine ++ headerLine ++ bannerLine ++ ['\n']
     ++ (Sorted.map (statRow MVL MNL)).flatten ++ ['\n'],
   Sorted)

/-- Model of `llvm::PrintStatistics()` in the statistics-enabled build
(`!NDEBUG || LLVM_ENABLE_STATS`): if the registry vector is empty nothing is
emitted (`none`, no sink is touched); otherwise the table is rendered to the
info output file.  Returns the emitted text (if any) and the registry vector
after the call. -/
def PrintStatisticsTop (Stats : List Statistic) :
    Option (List Char) × List Statistic :=
  if Stats.isEmpty then (none, Stats)
  else
    let r := PrintStatisticsOS Stats
    (some r.1, r.2)

/-- Model of `llvm::PrintStatistics()` in the statistics-disabled build (the
`#else` branch, `NDEBUG` and no `LLVM_ENABLE_STATS`): if the `-stats` flag is
set, a single diagnostic line is written to the info output file; otherwise
nothing is emitted. -/
def PrintStatisticsRelease (Enabled : Bool) : Option (List Char) :=
  if Enabled then
    some ("Statistics are disabled.  Build with asserts or with -DLLVM_ENABLE_STATS\n".toList)
  else none

/-- Model of a `struct tm` as filled in by `localtime`, restricted to the
fields consumed by the format `"%F-%R"`; to avoid the C epoch offsets, the
fields here hold the calendar values themselves (`tm_year + 1900`,
`tm_mon + 1`, `tm_mday`, `tm_hour`, `tm_min`). -/
structure Tm where
  year : Nat
  mon : Nat
  mday : Nat
  hour : Nat
  min : Nat
deriving DecidableEq, Repr

/-- Zero-padded two-digit decimal field, as produced by the `strftime`
conversions `%m`, `%d`, `%H`, `%M`. -/
def zpad2 (n : Nat) : List Char :=
  if n < 10 then '0' :: utostr n else utostr n

/-- The string produced by `strftime` for the format `"%F-%R"`, i.e.
`%Y-%m-%d-%H:%M` (`%F` is `%Y-%m-%d`, `%R` is `%H:%M`); `%Y` is the full
decimal year, the other fields are zero-padded to two digits. -/
def strftimeFR (t : Tm) : List Char :=
  utostr t.year ++ ['-'] ++ zpad2 t.mon ++ ['-'] ++ zpad2 t.mday
    ++ ['-'] ++ zpad2 t.hour ++ [':'] ++ zpad2 t.min

/-- The return value of `strftime(Timestamp, 18, "%F-%R", Timeinfo)`: the
number of characters placed (excluding the terminating NUL) when the result
fits the 18-byte buffer, and 0 otherwise. -/
def strftimeRet (t : Tm) : Nat :=
  if (strftimeFR t).length < 18 then (strftimeFR t).length else 0

/-- The observable output of one `PrintStatisticsToCSV` call that passed the
empty-label guard: the notice line written to the info output stream, and the
data rows appended to the derived `<label>.csv` file. -/
structure CSVOutput where
  infoLine : List Char
  fileRows : List (List Char)
deriving DecidableEq, Repr

/-- One data row of the CSV exporter loop: run label, name, variable
identifier, value, description and the shared timestamp, comma-separated. -/
def csvRow (PrintCSV Timestamp : List Char) (s : Statistic) : List Char :=
  PrintCSV ++ [','] ++ s.Name ++ [','] ++ s.VarName ++ [','] ++ utostr s.Value
    ++ [','] ++ s.Desc ++ [','] ++ Timestamp ++ ['\n']

/-- Model of `llvm::PrintStatisticsToCSV()` in the CSV-enabled build
(`!NDEBUG && LLVM_ENABLE_STATS && LLVM_CSV_OUTPUT`).  `PrintCSV` is the value
of the `-csv` option, `Stats` the registry vector at the time of the call,
`t` the broken-down local time, and `failBuf` the (indeterminate) buffer
contents in case `strftime` fails.  If the label is empty nothing at all
happens (`none`).  Otherwise the notice line goes to the info stream and the
row loop is guarded by `int Error = strftime(...); if (!Error) { ... }`, so
the data rows are emitted only when `strftime` returned 0.  (The source spells
`Time(&rawtime)` and `path.str()` for the declared `time`/`Rawtime`/`Path`;
those identifier slips are modelled as the evident intent.) -/
def PrintStatisticsToCSV (PrintCSV : List Char) (Stats : List Statistic)
    (t : Tm) (failBuf : List Char) : Option CSVOutput :=
  if PrintCSV.isEmpty then none
  else
    let Path := PrintCSV ++ ".csv".toList
    let Error := strftimeRet t
    let Timestamp := if Error = 0 then failBuf else strftimeFR t
    some { infoLine := "Writing to File ".toList ++ Path ++ ['\n'],
           fileRows :=
             if Error = 0 then Stats.map (csvRow PrintCSV Timestamp) else [] }

/-- Model of `PrintStatisticsToCSV` in any build missing one of `!NDEBUG`,
`LLVM_ENABLE_STATS`, `LLVM_CSV_OUTPUT`: the whole body is compiled out. -/
def PrintStatisticsToCSVCompiledOut : Option CSVOutput :=
  none

/-- Model of the teardown destructor `StatisticInfo::~StatisticInfo()` in the
statistics- and CSV-enabled build: `llvm::PrintStatistics()` first (which
sorts the registry vector in place when it renders), then
`llvm::PrintStatisticsToCSV()` on the resulting vector.  Returns the table
text (if any), the CSV output (if any) and the final registry vector. -/
def teardown (Stats : List Statistic) (PrintCSV : List Char) (t : Tm)
    (failBuf : List Char) :
    Option (List Char) × Option CSVOutput × List Statistic :=
  let r := PrintStatisticsTop Stats
  (r.1, PrintStatisticsToCSV PrintCSV r.2 t failBuf, r.2)

/-- Model of `Statistic::RegisterStatistic()` (the body under the
`sys::SmartScopedLock`), acting on this counter's state, the registry vector
and this counter's identity `i` (the pointer pushed by
`StatInfo->addStatistic(this)` is modelled by the counter's index): if not
yet `Initialized`, append the identity to the registry when `Enabled` holds,
then set `Initialized`; otherwise do nothing. -/
def RegisterStatistic (Enabled : Bool) (c : Statistic) (Registry : List Nat)
    (i : Nat) : Statistic × List Nat :=
  if !c.Initialized then
    ({ c with Initialized := true },
     if Enabled then Registry ++ [i] else Registry)
  else
    (c, Registry)

/-- Global state of the statistics subsystem: the `-stats` flag, all
`Statistic` objects of the program (a counter's identity is its index), and
the registry vector `StatInfo->Stats` holding the indices of the registered
counters in registration order. -/
structure SysState where
  Enabled : Bool
  Counters : List Statistic
  Registry : List Nat
deriving DecidableEq, Repr

/-- Events acting on the global state: `touch i` is the first-use hook of
counter `i` invoking `RegisterStatistic` (as every mutating `Statistic`
operator does), `setEnabled b` models `llvm::EnableStatistics()` /
`Enabled.setValue(b)`. -/
inductive Event where
  | touch (i : Nat)
  | setEnabled (b : Bool)
deriving DecidableEq, Repr

/-- One step of the statistics subsystem. -/
def step : SysState → Event → SysState
  | s, .setEnabled b => { s with Enabled := b }
  | s, .touch i =>
    match s.Counters[i]? with
    | none => s
    | some c =>
      let r := RegisterStatistic s.Enabled c s.Registry i
      { s with Counters := s.Counters.set i r.1, Registry := r.2 }

/-- Run a sequence of events. -/
def run (s : SysState) (es : List Event) : SysState :=
  es.foldl step s

/-- A freshly constructed `Statistic` (static storage duration): `Value` is
zero and `Initialized` is false. -/
def initCounter (n d v : List Char) : Statistic :=
  { Name := n, Desc := d, VarName := v, Value := 0, Initialized := false }

/-- Initial state of a program whose counters are described by `ds` (name,
description, variable identifier), with initial flag value `e`: no counter is
initialized and the registry is empty. -/
def initState (ds : List (List Char × List Char × List Char)) (e : Bool) :
    SysState :=
  { Enabled := e,
    Counters := ds.map (fun x => initCounter x.1 x.2.1 x.2.2),
    Registry := [] }

/-- The snapshot of the registry vector as a list of counter states, in the
vector's order (dereferencing the stored pointers). -/
def registeredStats (s : SysState) : List Statistic :=
  s.Registry.filterMap (fun i => s.Counters[i]?)

/-- Concrete example counter (fixture for the evaluation of the teardown
export path): name `AAA`, registered after `sampleB` but ahead of it in
sorted order. -/
def sampleA : Statistic :=
  { Name := "AAA".toList, Desc := "da".toList, VarName := "va".toList,
    Value := 1, Initialized := true }

/-- Concrete example counter (fixture for the evaluation of the teardown
export path): name `BBB`, registered before `sampleA`. -/
def sampleB : Statistic :=
  { Name := "BBB".toList, Desc := "db".toList, VarName := "vb".toList,
    Value := 2, Initialized := true }

/-- Concrete example counter with a one-digit value and a one-character name
(the width-computation example of the specification). -/
def sampleShort : Statistic :=
  { Name := "A".toList, Desc := "dA".toList, VarName := "vA".toList,
    Value := 1, Initialized := true }

/-- Concrete example counter with value 1000000 (printed width 7) and the
15-character name `LongCounterName` (the width-computation example of the
specification). -/
def sampleLong : Statistic :=
  { Name := "LongCounterName".toList, Desc := "dL".toList,
    VarName := "vL".toList, Value := 1000000, Initialized := true }

/-- Concrete example counter sharing name `N` and description `D` with
`sampleEq2` (fixture for the stability of the table sort). -/
def sampleEq1 : Statistic :=
  { Name := "N".toList, Desc := "D".toList, VarName := "v1".toList,
    Value := 1, Initialized := true }

/-- Concrete example counter sharing name `N` and description `D` with
`sampleEq1` (fixture for the stability of the table sort). -/
def sampleEq2 : Statistic :=
  { Name := "N".toList, Desc := "D".toList, VarName := "v2".toList,
    Value := 2, Initialized := true }

/-- Predicate on events: the event does not switch the `-stats` flag on
(it is a counter touch or a disabling of the flag). -/
def eventKeepsDisabled (e : Event) : Bool :=
  match e with
  | .setEnabled b => !b
  | .touch _ => true

/-- Invariant of the registration system: the registry vector holds no
duplicate identities, and every registered counter exists and carries the
`Initialized` flag. -/
def RegInv (s : SysState) : Prop :=
  s.Registry.Nodup ∧
    ∀ i ∈ s.Registry, ∃ c, s.Counters[i]? = some c ∧ c.Initialized = true

/-!  Order-theoretic facts about `strcmp`, `lexCmp`, `statLt`, `statLe`. -/

theorem char_eq_of_toNat_eq {x y : Char} (h : x.toNat = y.toNat) : x = y :=
  Char.ofNat_toNat x ▸ Char.ofNat_toNat y ▸ congrArg Char.ofNat h

theorem strcmp_cons_lt {x y : Char} (h : x.toNat < y.toNat) (as bs : List Char) :
    strcmp (x :: as) (y :: bs) = Ordering.lt := by
  simp [strcmp, h]

theorem strcmp_cons_gt {x y : Char} (h : y.toNat < x.toNat) (as bs : List Char) :
    strcmp (x :: as) (y :: bs) = Ordering.gt := by
  simp [strcmp, h, show ¬ x.toNat < y.toNat by omega]

theorem strcmp_cons_eq {x y : Char} (h : x.toNat = y.toNat) (as bs : List Char) :
    strcmp (x :: as) (y :: bs) = strcmp as bs := by
  simp [strcmp, show ¬ x.toNat < y.toNat by omega, show ¬ y.toNat < x.toNat by omega]

theorem strcmp_eq_iff (a b : List Char) : strcmp a b = Ordering.eq ↔ a = b := by
  induction a generalizing b with
  | nil => cases b <;> simp [strcmp]
  | cons x as ih =>
    cases b with
    | nil => simp [strcmp]
    | cons y bs =>
      rcases Nat.lt_trichotomy x.toNat y.toNat with h | h | h
      · have hxy : x ≠ y := fun he => by subst he; exact Nat.lt_irrefl _ h
        simp [strcmp_cons_lt h, hxy]
      · have hxy : x = y := char_eq_of_toNat_eq h
        subst hxy
        simp [strcmp_cons_eq rfl, ih]
      · have hxy : x ≠ y := fun he => by subst he; exact Nat.lt_irrefl _ h
        simp [strcmp_cons_gt h, hxy]

theorem strcmp_self (a : List Char) : strcmp a a = Ordering.eq :=
  (strcmp_eq_iff a a).mpr rfl

theorem strcmp_gt_iff (a b : List Char) :
    strcmp a b = Ordering.gt ↔ strcmp b a = Ordering.lt := by
  induction a generalizing b with
  | nil => cases b <;> simp [strcmp]
  | cons x as ih =>
    cases b with
    | nil => simp [strcmp]
    | cons y bs =>
      rcases Nat.lt_trichotomy x.toNat y.toNat with h | h | h
      · simp [strcmp_cons_lt h, strcmp_cons_gt h]
      · simp [strcmp_cons_eq h, strcmp_cons_eq h.symm, ih]
      · simp [strcmp_cons_gt h, strcmp_cons_lt h]

theorem strcmp_lt_trans {a b c : List Char} (h1 : strcmp a b = Ordering.lt)
    (h2 : strcmp b c = Ordering.lt) : strcmp a c = Ordering.lt := by
  induction a generalizing b c with
  | nil =>
    cases c with
    | nil =>
      cases b with
      | nil => exact h1
      | cons y bs => simp [strcmp] at h2
    | cons z cs => simp [strcmp]
  | cons x as ih =>
    cases b with
    | nil => simp [strcmp] at h1
    | cons y bs =>
      cases c with
      | nil => simp [strcmp] at h2
      | cons z cs =>
        rcases Nat.lt_trichotomy x.toNat y.toNat with hxy | hxy | hxy
        · rcases Nat.lt_trichotomy y.toNat z.toNat with hyz | hyz | hyz
          · exact strcmp_cons_lt (Nat.lt_trans hxy hyz) as cs
          · exact strcmp_cons_lt (by omega) as cs
          · rw [strcmp_cons_gt hyz] at h2; cases h2
        · rcases Nat.lt_trichotomy y.toNat z.toNat with hyz | hyz | hyz
          · exact strcmp_cons_lt (by omega) as cs
          · rw [strcmp_cons_eq hxy] at h1
            rw [strcmp_cons_eq hyz] at h2
            rw [strcmp_cons_eq (by omega)]
            exact ih h1 h2
          · rw [strcmp_cons_gt hyz] at h2; cases h2
        · rw [strcmp_cons_gt hxy] at h1; cases h1

theorem lexCmp_eq_iff (a b : Statistic) :
    lexCmp a b = Ordering.eq ↔ a.Name = b.Name ∧ a.Desc = b.Desc := by
  unfold lexCmp
  rcases h : strcmp a.Name b.Name with _ | _ | _
  · have : a.Name ≠ b.Name := fun he => by
      rw [he, strcmp_self] at h; cases h
    simp [this]
  · simp [strcmp_eq_iff, (strcmp_eq_iff a.Name b.Name).mp h]
  · have : a.Name ≠ b.Name := fun he => by
      rw [he, strcmp_self] at h; cases h
    simp [this]

theorem lexCmp_self (a : Statistic) : lexCmp a a = Ordering.eq :=
  (lexCmp_eq_iff a a).mpr ⟨rfl, rfl⟩

theorem lexCmp_gt_iff (a b : Statistic) :
    lexCmp a b = Ordering.gt ↔ lexCmp b a = Ordering.lt := by
  unfold lexCmp
  rcases h : strcmp a.Name b.Name with _ | _ | _
  · rw [(strcmp_gt_iff b.Name a.Name).mpr h]
    simp
  · have hn : a.Name = b.Name := (strcmp_eq_iff _ _).mp h
    rw [hn, strcmp_self]
    exact strcmp_gt_iff a.Desc b.Desc
  · rw [(strcmp_gt_iff a.Name b.Name).mp h]
    simp

theorem lexCmp_lt_trans {a b c : Statistic} (h1 : lexCmp a b = Ordering.lt)
    (h2 : lexCmp b c = Ordering.lt) : lexCmp a c = Ordering.lt := by
  unfold lexCmp at *
  rcases hab : strcmp a.Name b.Name with _ | _ | _ <;> rw [hab] at h1 <;>
    rcases hbc : strcmp b.Name c.Name with _ | _ | _ <;> rw [hbc] at h2
  · rw [strcmp_lt_trans hab hbc]
  · have hn : b.Name = c.Name := (strcmp_eq_iff _ _).mp hbc
    rw [← hn, hab]
  · cases h2
  · have hn : a.Name = b.Name := (strcmp_eq_iff _ _).mp hab
    rw [hn, hbc]
  · have hn : a.Name = c.Name :=
      ((strcmp_eq_iff _ _).mp hab).trans ((strcmp_eq_iff _ _).mp hbc)
    rw [(strcmp_eq_iff _ _).mpr hn]
    exact strcmp_lt_trans h1 h2
  · cases h2
  · cases h1
  · cases h1
  · cases h1

theorem statLt_eq_lexCmp (a b : Statistic) :
    statLt a b = (lexCmp a b == Ordering.lt) := by
  unfold statLt lexCmp
  rcases h : strcmp a.Name b.Name <;> rfl

theorem statLt_asymm {a b : Statistic} (h1 : statLt a b = true) :
    statLt b a = false := by
  rw [statLt_eq_lexCmp] at *
  have hab : lexCmp a b = Ordering.lt := by
    cases hc : lexCmp a b <;> rw [hc] at h1 <;> first | rfl | cases h1
  by_contra hba
  have hba2 : lexCmp b a = Ordering.lt := by
    cases hc : lexCmp b a <;> rw [hc] at hba <;> simp at hba <;> first | rfl | cases hba
  have : lexCmp a a = Ordering.lt := lexCmp_lt_trans hab hba2
  rw [lexCmp_self] at this
  cases this

theorem statLe_total (a b : Statistic) : (statLe a b || statLe b a) = true := by
  unfold statLe
  by_contra h
  simp only [Bool.or_eq_true, Bool.not_eq_true'] at h
  push_neg at h
  rcases h with ⟨h1, h2⟩
  have h1t : statLt b a = true := by
    cases hc : statLt b a
    · exact absurd hc h1
    · rfl
  have := statLt_asymm h1t
  have h2t : statLt a b = true := by
    cases hc : statLt a b
    · exact absurd hc h2
    · rfl
  rw [this] at h2t
  cases h2t

theorem statLe_trans {a b c : Statistic} (h1 : statLe a b = true)
    (h2 : statLe b c = true) : statLe a c = true := by
  unfold statLe at *
  simp only [Bool.not_eq_true'] at *
  by_contra hca
  have hca2 : lexCmp c a = Ordering.lt := by
    rw [statLt_eq_lexCmp] at hca
    cases hc : lexCmp c a <;> rw [hc] at hca <;> simp at hca <;> first | rfl | cases hca
  rcases hcb : lexCmp c b with _ | _ | _
  · have : statLt c b = true := by rw [statLt_eq_lexCmp, hcb]; rfl
    rw [this] at h2; cases h2
  · rcases (lexCmp_eq_iff c b).mp hcb with ⟨hn, hd⟩
    have hba : lexCmp b a = Ordering.lt := by
      unfold lexCmp at hca2 ⊢
      rw [← hn, ← hd]
      exact hca2
    have : statLt b a = true := by rw [statLt_eq_lexCmp, hba]; rfl
    rw [this] at h1; cases h1
  · have hbc : lexCmp b c = Ordering.lt := (lexCmp_gt_iff c b).mp hcb
    have hba : lexCmp b a = Ordering.lt := lexCmp_lt_trans hbc hca2
    have : statLt b a = true := by rw [statLt_eq_lexCmp, hba]; rfl
    rw [this] at h1; cases h1

theorem statLe_of_key_eq {a b : Statistic} (hn : a.Name = b.Name)
    (hd : a.Desc = b.Desc) : statLe a b = true := by
  unfold statLe
  rw [statLt_eq_lexCmp, (lexCmp_eq_iff b a).mpr ⟨hn.symm, hd.symm⟩]
  rfl

theorem statLe_iff_not_lt (a b : Statistic) :
    statLe a b = true ↔ statLt b a = false := by
  unfold statLe
  cases statLt b a <;> simp

/-!  Facts about the stable sort of the registry vector. -/

theorem sortStats_sorted (l : List Statistic) :
    (sortStats l).Pairwise (fun a b => statLe a b = true) := by
  unfold sortStats
  exact @List.sorted_mergeSort Statistic statLe
    (fun _ _ _ hab hbc => statLe_trans hab hbc)
    (fun a b => statLe_total a b) l

theorem sortStats_perm (l : List Statistic) : (sortStats l).Perm l :=
  List.mergeSort_perm l statLe

theorem sortStats_idem (l : List Statistic) :
    sortStats (sortStats l) = sortStats l :=
  List.mergeSort_of_sorted (sortStats_sorted l)

theorem sortStats_stable_pair {a b : Statistic} {l : List Statistic}
    (hn : a.Name = b.Name) (hd : a.Desc = b.Desc)
    (hsub : [a, b].Sublist l) : [a, b].Sublist (sortStats l) := by
  unfold sortStats
  exact List.pair_sublist_mergeSort (fun _ _ _ hab hbc => statLe_trans hab hbc)
    (fun x y => statLe_total x y) (statLe_of_key_eq hn hd) hsub

/-!  Generic facts about the running-maximum folds. -/

theorem le_foldl_max {α : Type} (f : α → Nat) (l : List α) (i : Nat) :
    i ≤ l.foldl (fun M a => max M (f a)) i := by
  induction l generalizing i with
  | nil => exact Nat.le_refl i
  | cons x xs ih =>
    simp only [List.foldl_cons]
    exact le_trans (Nat.le_max_left i (f x)) (ih (max i (f x)))

theorem foldl_max_of_mem {α : Type} (f : α → Nat) {l : List α} {s : α}
    (h : s ∈ l) (i : Nat) : f s ≤ l.foldl (fun M a => max M (f a)) i := by
  induction l generalizing i with
  | nil => cases h
  | cons x xs ih =>
    simp only [List.foldl_cons]
    rcases List.mem_cons.mp h with h | h
    · subst h
      exact le_trans (Nat.le_max_right i (f s)) (le_foldl_max f xs _)
    · exact ih h _

theorem foldl_max_attained {α : Type} (f : α → Nat) (l : List α) (i : Nat) :
    l.foldl (fun M a => max M (f a)) i = i ∨
      ∃ s ∈ l, l.foldl (fun M a => max M (f a)) i = f s := by
  induction l generalizing i with
  | nil => exact Or.inl rfl
  | cons x xs ih =>
    simp only [List.foldl_cons]
    rcases ih (max i (f x)) with h | ⟨s, hs, hv⟩
    · rcases max_choice i (f x) with hm | hm
      · exact Or.inl (by rw [h, hm])
      · exact Or.inr ⟨x, List.mem_cons_self x xs, by rw [h, hm]⟩
    · exact Or.inr ⟨s, List.mem_cons_of_mem _ hs, hv⟩

theorem exists_foldl_max_eq {α : Type} (f : α → Nat) {l : List α}
    (h : l ≠ []) : ∃ s ∈ l, l.foldl (fun M a => max M (f a)) 0 = f s := by
  rcases foldl_max_attained f l 0 with h0 | h1
  · rcases l with _ | ⟨x, xs⟩
    · exact absurd rfl h
    · refine ⟨x, List.mem_cons_self x xs, ?_⟩
      have hle := foldl_max_of_mem f (List.mem_cons_self x xs) 0
      omega
  · exact h1

theorem rightCommutative_max {α : Type} (f : α → Nat) :
    RightCommutative (fun (M : Nat) a => max M (f a)) :=
  ⟨fun b a1 a2 => by simp [Nat.max_assoc, Nat.max_comm (f a1) (f a2)]⟩

theorem padLeft_length {W : Nat} {s : List Char} (h : s.length ≤ W) :
    (padLeft W s).length = W := by
  simp only [padLeft, List.length_append, List.length_replicate]
  omega

theorem padRight_length {W : Nat} {s : List Char} (h : s.length ≤ W) :
    (padRight W s).length = W := by
  simp only [padRight, List.length_append, List.length_replicate]
  omega

theorem MaxValLen_perm {l l2 : List Statistic} (h : l.Perm l2) :
    MaxValLen l = MaxValLen l2 :=
  @List.Perm.foldl_eq _ _ _ _ _ (rightCommutative_max _) h 0

theorem MaxNameLen_perm {l l2 : List Statistic} (h : l.Perm l2) :
    MaxNameLen l = MaxNameLen l2 :=
  @List.Perm.foldl_eq _ _ _ _ _ (rightCommutative_max _) h 0

/-!  Invariants of the registration system. -/

theorem RegisterStatistic_not_init {E : Bool} {c : Statistic}
    {R : List Nat} {i : Nat} (h : c.Initialized = false) :
    RegisterStatistic E c R i =
      ({ c with Initialized := true }, if E then R ++ [i] else R) := by
  simp [RegisterStatistic, h]

theorem RegisterStatistic_init {E : Bool} {c : Statistic}
    {R : List Nat} {i : Nat} (h : c.Initialized = true) :
    RegisterStatistic E c R i = (c, R) := by
  simp [RegisterStatistic, h]

theorem step_setEnabled (s : SysState) (b : Bool) :
    step s (Event.setEnabled b) = { s with Enabled := b } :=
  rfl

theorem step_touch_none {s : SysState} {i : Nat}
    (hc : s.Counters[i]? = none) : step s (Event.touch i) = s := by
  simp only [step]
  rw [hc]

theorem step_touch_some {s : SysState} {i : Nat} {c : Statistic}
    (hc : s.Counters[i]? = some c) :
    step s (Event.touch i) =
      { s with
        Counters := s.Counters.set i (RegisterStatistic s.Enabled c s.Registry i).1,
        Registry := (RegisterStatistic s.Enabled c s.Registry i).2 } := by
  simp only [step]
  rw [hc]

theorem lt_length_of_getElem?_eq_some {l : List Statistic} {i : Nat}
    {c : Statistic} (hc : l[i]? = some c) : i < l.length := by
  by_contra hge
  rw [List.getElem?_eq_none (Nat.le_of_not_lt hge)] at hc
  cases hc

theorem initState_regInv (ds : List (List Char × List Char × List Char))
    (e : Bool) : RegInv (initState ds e) := by
  constructor
  · exact List.nodup_nil
  · intro i hi
    cases hi

theorem step_regInv {s : SysState} (h : RegInv s) (e : Event) :
    RegInv (step s e) := by
  rcases e with i | b
  case setEnabled => exact h
  case touch =>
    rcases h with ⟨hnd, hmem⟩
    rcases hc : s.Counters[i]? with _ | c
    · rw [step_touch_none hc]
      exact ⟨hnd, hmem⟩
    · have hilen : i < s.Counters.length := lt_length_of_getElem?_eq_some hc
      rw [step_touch_some hc]
      rcases hinit : c.Initialized with _ | _
      · -- first touch of counter i
        have hnotreg : i ∉ s.Registry := by
          intro hin
          rcases hmem i hin with ⟨c2, hc2, hc2i⟩
          rw [hc] at hc2
          cases hc2
          rw [hinit] at hc2i
          cases hc2i
        rw [RegisterStatistic_not_init hinit]
        constructor
        · by_cases hE : s.Enabled = true
          · simp only [hE, if_pos]
            simpa [List.nodup_append] using ⟨hnd, hnotreg⟩
          · simp only [hE, if_neg]
            exact hnd
        · intro j hj
          simp only at hj
          by_cases hji : j = i
          · subst hji
            exact ⟨{ c with Initialized := true },
              by simpa using List.getElem?_set_self hilen, rfl⟩
          · have hjmem : j ∈ s.Registry := by
              by_cases hE : s.Enabled = true
              · rw [if_pos hE] at hj
                rcases (by simpa using hj : j ∈ s.Registry ∨ j = i) with h2 | h2
                · exact h2
                · exact absurd h2 hji
              · rw [if_neg hE] at hj
                exact hj
            rcases hmem j hjmem with ⟨c2, hc2, hc2i⟩
            exact ⟨c2, by simpa [List.getElem?_set_ne (fun he => hji he.symm)]
              using hc2, hc2i⟩
      · -- already initialized: no-op
        rw [RegisterStatistic_init hinit]
        refine ⟨hnd, ?_⟩
        intro j hj
        simp only at hj
        by_cases hji : j = i
        · subst hji
          refine ⟨c, by simpa using List.getElem?_set_self hilen, hinit⟩
        · rcases hmem j hj with ⟨c2, hc2, hc2i⟩
          exact ⟨c2, by simpa [List.getElem?_set_ne (fun he => hji he.symm)]
            using hc2, hc2i⟩

theorem run_regInv (es : List Event) {s : SysState} (h : RegInv s) :
    RegInv (run s es) := by
  induction es generalizing s with
  | nil => exact h
  | cons e es ih => exact ih (step_regInv h e)

theorem run_disabled (es : List Event) {s : SysState}
    (hE : s.Enabled = false) (hR : s.Registry = [])
    (hes : ∀ e ∈ es, eventKeepsDisabled e = true) :
    (run s es).Enabled = false ∧ (run s es).Registry = [] := by
  induction es generalizing s with
  | nil => exact ⟨hE, hR⟩
  | cons e es ih =>
    have he := hes e (List.mem_cons_self e es)
    have hes2 : ∀ x ∈ es, eventKeepsDisabled x = true :=
      fun x hx => hes x (List.mem_cons_of_mem e hx)
    rcases e with i | b
    case touch =>
      refine ih ?_ ?_ hes2
      · rcases hc : s.Counters[i]? with _ | c
        · rw [step_touch_none hc]; exact hE
        · rw [step_touch_some hc]; exact hE
      · rcases hc : s.Counters[i]? with _ | c
        · rw [step_touch_none hc]; exact hR
        · rw [step_touch_some hc]
          rcases hinit : c.Initialized with _ | _
          · rw [RegisterStatistic_not_init hinit]
            simp [hE, hR]
          · rw [RegisterStatistic_init hinit]
            exact hR
    case setEnabled =>
      have hb : b = false := by
        simpa [eventKeepsDisabled] using he
      subst hb
      exact ih rfl hR hes2

theorem step_excluded {s : SysState} {e : Event} {i : Nat}
    (h : (∃ c, s.Counters[i]? = some c ∧ c.Initialized = true) ∧
      i ∉ s.Registry) :
    (∃ c, (step s e).Counters[i]? = some c ∧ c.Initialized = true) ∧
      i ∉ (step s e).Registry := by
  rcases h with ⟨⟨c, hc, hci⟩, hnot⟩
  rcases e with j | b
  case setEnabled => exact ⟨⟨c, hc, hci⟩, hnot⟩
  case touch =>
    rcases hcj : s.Counters[j]? with _ | cj
    · rw [step_touch_none hcj]
      exact ⟨⟨c, hc, hci⟩, hnot⟩
    · have hjlen : j < s.Counters.length := lt_length_of_getElem?_eq_some hcj
      rw [step_touch_some hcj]
      by_cases hji : j = i
      · subst hji
        rw [hc] at hcj
        cases hcj
        rw [RegisterStatistic_init hci]
        exact ⟨⟨c, by simpa using List.getElem?_set_self hjlen, hci⟩, hnot⟩
      · refine ⟨⟨c, by simpa [List.getElem?_set_ne hji] using hc, hci⟩, ?_⟩
        rcases hinit : cj.Initialized with _ | _
        · rw [RegisterStatistic_not_init hinit]
          by_cases hE : s.Enabled = true
          · simp only [hE, if_pos, List.mem_append, List.mem_singleton]
            rintro (hmem | hes)
            · exact hnot hmem
            · exact hji hes.symm
          · simp only [hE, if_neg]
            exact hnot
        · rw [RegisterStatistic_init hinit]
          exact hnot

theorem run_excluded (es : List Event) {s : SysState} {i : Nat}
    (h : (∃ c, s.Counters[i]? = some c ∧ c.Initialized = true) ∧
      i ∉ s.Registry) :
    i ∉ (run s es).Registry := by
  induction es generalizing s with
  | nil => exact h.2
  | cons e es ih => exact ih (step_excluded h)

/-!  The claims. -/

/-- C9: when no export destination has been configured (the `-csv` run-label
string is empty), `PrintStatisticsToCSV` is a no-op: it returns `none`,
producing zero rows and touching no sink. -/
theorem C9_empty_label_export_noop (Stats : List Statistic) (t : Tm)
    (failBuf : List Char) : PrintStatisticsToCSV [] Stats t failBuf = none := by
  simp [PrintStatisticsToCSV]

/-- C8: in a build without statistics capability, teardown reporting with the
enabled flag set emits exactly the fixed diagnostic text, which is a single
line (it contains exactly one newline, located at the very end), and the CSV
exporter is compiled out so no export rows exist; with the flag unset nothing
is emitted at all. -/
theorem C8_unavailable_notice :
    PrintStatisticsRelease true =
      some ("Statistics are disabled.  Build with asserts or with -DLLVM_ENABLE_STATS\n".toList) ∧
    ("Statistics are disabled.  Build with asserts or with -DLLVM_ENABLE_STATS\n".toList).count '\n' = 1 ∧
    ("Statistics are disabled.  Build with asserts or with -DLLVM_ENABLE_STATS\n".toList).getLast? = some '\n' ∧
    PrintStatisticsRelease false = none ∧
    PrintStatisticsToCSVCompiledOut = none :=
  ⟨rfl, by decide, by decide, rfl, rfl⟩

/-- C7: evaluation of the CSV exporter at a concrete call (label `run`, one
registered counter, local time 2026-10-12 01:39).  `strftime` succeeds and
returns 16, and the timestamp string is the well-formed `2026-10-12-01:39` —
but precisely because the return value is nonzero, the row loop guarded by
`if (!Error)` is skipped and the call writes zero CSV rows, against the
claim's one row per counter carrying that timestamp. -/
theorem C7_rows_dropped_when_strftime_succeeds :
    strftimeRet ⟨2026, 10, 12, 1, 39⟩ = 16 ∧
    strftimeFR ⟨2026, 10, 12, 1, 39⟩ = "2026-10-12-01:39".toList ∧
    PrintStatisticsToCSV ("run".toList)
        [{ Name := "A".toList, Desc := "d".toList, VarName := "NumA".toList,
           Value := 3, Initialized := true }]
        ⟨2026, 10, 12, 1, 39⟩ [] =
      some { infoLine := "Writing to File run.csv\n".toList, fileRows := [] } :=
  ⟨by decide, by decide, by decide⟩

/-- C2: evaluation of a full teardown (table render, then CSV export) on a
registry holding `sampleB` then `sampleA` in registration order, with export
label `run`.  The export emits zero rows (the `if (!Error)` slip), and the
registry vector the CSV loop iterates has been re-ordered in place to sorted
order `[sampleA, sampleB]` by the table render, which differs from the
registration order `[sampleB, sampleA]` — so the exported rows are not the
registration-order rows the claim requires. -/
theorem C2_teardown_export_not_registration_order :
    (teardown [sampleB, sampleA] "run".toList ⟨2014, 5, 20, 12, 34⟩ []).2.1 =
      some { infoLine := "Writing to File run.csv\n".toList, fileRows := [] } ∧
    (teardown [sampleB, sampleA] "run".toList ⟨2014, 5, 20, 12, 34⟩ []).2.2 =
      [sampleA, sampleB] ∧
    [sampleA, sampleB] ≠ [sampleB, sampleA] := by
  have hle : statLe sampleB sampleA = false := by decide
  have hsort : sortStats [sampleB, sampleA] = [sampleA, sampleB] := by
    unfold sortStats
    simp [List.mergeSort, List.merge, hle]
  have h1 : (PrintStatisticsTop [sampleB, sampleA]).2 = [sampleA, sampleB] := by
    simp only [PrintStatisticsTop, PrintStatisticsOS]
    rw [if_neg (by decide)]
    exact hsort
  refine ⟨?_, h1, by decide⟩
  show PrintStatisticsToCSV "run".toList (PrintStatisticsTop [sampleB, sampleA]).2
      ⟨2014, 5, 20, 12, 34⟩ [] = _
  rw [h1]
  decide

/-- C1: registration is idempotent.  A `RegisterStatistic` call on a counter
whose `Initialized` flag is already set leaves both the counter and the
registry unchanged, and along every run of the system from an initial state
every counter identity occurs at most once in the registry vector. -/
theorem C1_registration_idempotent :
    (∀ (E : Bool) (c : Statistic) (R : List Nat) (i : Nat),
        c.Initialized = true → RegisterStatistic E c R i = (c, R)) ∧
    (∀ (ds : List (List Char × List Char × List Char)) (e : Bool)
        (es : List Event) (i : Nat),
        (run (initState ds e) es).Registry.count i ≤ 1) := by
  constructor
  · exact fun _ _ _ _ h => RegisterStatistic_init h
  · intro ds e es i
    have h := run_regInv es (initState_regInv ds e)
    exact List.nodup_iff_count_le_one.mp h.1 i

/-- Witness for C1 at concrete inputs: a second registration of an
already-initialized counter is a no-op, and after two touches of counter 0
its identity appears at most once in the registry. -/
theorem C1_witness :
    RegisterStatistic true
        { Name := "A".toList, Desc := "d".toList, VarName := "v".toList,
          Value := 7, Initialized := true } [5] 3 =
      ({ Name := "A".toList, Desc := "d".toList, VarName := "v".toList,
         Value := 7, Initialized := true }, [5]) ∧
    (run (initState [("N".toList, "D".toList, "V".toList)] true)
        [Event.touch 0, Event.touch 0]).Registry.count 0 ≤ 1 :=
  ⟨C1_registration_idempotent.1 true _ [5] 3 rfl,
   C1_registration_idempotent.2 [("N".toList, "D".toList, "V".toList)] true
     [Event.touch 0, Event.touch 0] 0⟩

/-- C6: if the enabled flag is false at every touch (the run starts disabled
and contains no enabling event), no counter is ever added to the registry, so
the registry stays empty, the registered snapshot is empty, and teardown-time
`PrintStatistics()` emits nothing. -/
theorem C6_disabled_suppresses_registration_and_report
    (ds : List (List Char × List Char × List Char)) (es : List Event)
    (hes : ∀ e ∈ es, eventKeepsDisabled e = true) :
    (run (initState ds false) es).Registry = [] ∧
    registeredStats (run (initState ds false) es) = [] ∧
    PrintStatisticsTop (registeredStats (run (initState ds false) es)) =
      (none, []) := by
  have h := run_disabled es (s := initState ds false) rfl rfl hes
  refine ⟨h.2, ?_, ?_⟩
  · simp [registeredStats, h.2]
  · simp [registeredStats, h.2, PrintStatisticsTop]

/-- Witness for C6 at a concrete run: two counters, touches and a disabling
event only. -/
theorem C6_witness :
    (∀ e ∈ [Event.touch 0, Event.setEnabled false, Event.touch 1,
        Event.touch 0], eventKeepsDisabled e = true) ∧
    (run (initState [("N".toList, "D".toList, "V".toList),
        ("M".toList, "E".toList, "W".toList)] false)
      [Event.touch 0, Event.setEnabled false, Event.touch 1,
        Event.touch 0]).Registry = [] ∧
    registeredStats (run (initState [("N".toList, "D".toList, "V".toList),
        ("M".toList, "E".toList, "W".toList)] false)
      [Event.touch 0, Event.setEnabled false, Event.touch 1,
        Event.touch 0]) = [] ∧
    PrintStatisticsTop (registeredStats (run (initState
        [("N".toList, "D".toList, "V".toList),
         ("M".toList, "E".toList, "W".toList)] false)
      [Event.touch 0, Event.setEnabled false, Event.touch 1,
        Event.touch 0])) = (none, []) :=
  ⟨by decide,
   C6_disabled_suppresses_registration_and_report _ _ (by decide)⟩

/-- C10: a first touch while the flag is disabled still sets the counter's
`Initialized` flag without adding it to the registry, and an initialized
counter that is not in the registry never enters it on any later run —
whatever touches and flag changes (including enabling) follow. -/
theorem C10_disabled_first_touch_permanent_exclusion :
    (∀ (c : Statistic) (R : List Nat) (i : Nat), c.Initialized = false →
        RegisterStatistic false c R i = ({ c with Initialized := true }, R)) ∧
    (∀ (s : SysState) (es : List Event) (i : Nat) (c : Statistic),
        s.Counters[i]? = some c → c.Initialized = true → i ∉ s.Registry →
        i ∉ (run s es).Registry) := by
  constructor
  · intro c R i h
    rw [RegisterStatistic_not_init h]
    simp
  · intro s es i c hc hci hnot
    exact run_excluded es ⟨⟨c, hc, hci⟩, hnot⟩

/-- Witness for C10 at concrete inputs: a disabled first touch initializes
without registering, and the counter stays out of the registry across a later
enabling and further touches. -/
theorem C10_witness :
    ({ Name := "A".toList, Desc := "d".toList, VarName := "v".toList,
       Value := 0, Initialized := false } : Statistic).Initialized = false ∧
    RegisterStatistic false
        { Name := "A".toList, Desc := "d".toList, VarName := "v".toList,
          Value := 0, Initialized := false } [] 0 =
      ({ Name := "A".toList, Desc := "d".toList, VarName := "v".toList,
         Value := 0, Initialized := true }, []) ∧
    0 ∉ (run
        { Enabled := false,
          Counters := [{ Name := "A".toList, Desc := "d".toList,
                         VarName := "v".toList, Value := 0,
                         Initialized := true }],
          Registry := [] }
        [Event.setEnabled true, Event.touch 0, Event.touch 0]).Registry :=
  ⟨rfl,
   C10_disabled_first_touch_permanent_exclusion.1 _ [] 0 rfl,
   C10_disabled_first_touch_permanent_exclusion.2 _
     [Event.setEnabled true, Event.touch 0, Event.touch 0] 0 _ rfl rfl
     (by decide)⟩

/-- C4: for a non-empty registry, `MaxValLen` is the maximum over all
counters of the printed decimal width of the value (an upper bound that is
attained), `MaxNameLen` is the maximum of the name lengths, every row's value
field is padded to exactly `MaxValLen` characters with the digits at the
right end, every row's name field is padded to exactly `MaxNameLen`
characters with the name at the left end; and on the specification's example
(values 1 and 1000000, names `A` and `LongCounterName`) the widths are 7
and 15. -/
theorem C4_column_widths :
    (∀ (l : List Statistic), l ≠ [] →
      (∀ s ∈ l, (utostr s.Value).length ≤ MaxValLen l ∧
          s.Name.length ≤ MaxNameLen l) ∧
      (∃ s ∈ l, MaxValLen l = (utostr s.Value).length) ∧
      (∃ s ∈ l, MaxNameLen l = s.Name.length) ∧
      (∀ s ∈ l,
        (padLeft (MaxValLen l) (utostr s.Value)).length = MaxValLen l ∧
        (padRight (MaxNameLen l) s.Name).length = MaxNameLen l ∧
        utostr s.Value <:+ padLeft (MaxValLen l) (utostr s.Value) ∧
        s.Name <+: padRight (MaxNameLen l) s.Name)) ∧
    MaxValLen [sampleShort, sampleLong] = 7 ∧
    MaxNameLen [sampleShort, sampleLong] = 15 := by
  refine ⟨?_, by decide, by decide⟩
  intro l hl
  have hv : ∀ s ∈ l, (utostr s.Value).length ≤ MaxValLen l :=
    fun s hs => foldl_max_of_mem (fun a => (utostr a.Value).length) hs 0
  have hn : ∀ s ∈ l, s.Name.length ≤ MaxNameLen l :=
    fun s hs => foldl_max_of_mem (fun a => a.Name.length) hs 0
  have hve : ∃ s ∈ l, MaxValLen l = (utostr s.Value).length := by
    unfold MaxValLen
    exact exists_foldl_max_eq (fun a => (utostr a.Value).length) hl
  have hne : ∃ s ∈ l, MaxNameLen l = s.Name.length := by
    unfold MaxNameLen
    exact exists_foldl_max_eq (fun a => a.Name.length) hl
  refine ⟨fun s hs => ⟨hv s hs, hn s hs⟩, hve, hne,
    fun s hs => ⟨padLeft_length (hv s hs), padRight_length (hn s hs),
      List.suffix_append _ _, List.prefix_append _ _⟩⟩

/-- Witness for C4 at the specification's example list. -/
theorem C4_witness :
    [sampleShort, sampleLong] ≠ [] ∧
    ((∀ s ∈ [sampleShort, sampleLong],
        (utostr s.Value).length ≤ MaxValLen [sampleShort, sampleLong] ∧
        s.Name.length ≤ MaxNameLen [sampleShort, sampleLong]) ∧
      (∃ s ∈ [sampleShort, sampleLong],
        MaxValLen [sampleShort, sampleLong] = (utostr s.Value).length) ∧
      (∃ s ∈ [sampleShort, sampleLong],
        MaxNameLen [sampleShort, sampleLong] = s.Name.length) ∧
      (∀ s ∈ [sampleShort, sampleLong],
        (padLeft (MaxValLen [sampleShort, sampleLong])
            (utostr s.Value)).length = MaxValLen [sampleShort, sampleLong] ∧
        (padRight (MaxNameLen [sampleShort, sampleLong])
            s.Name).length = MaxNameLen [sampleShort, sampleLong] ∧
        utostr s.Value <:+
          padLeft (MaxValLen [sampleShort, sampleLong]) (utostr s.Value) ∧
        s.Name <+:
          padRight (MaxNameLen [sampleShort, sampleLong]) s.Name)) :=
  ⟨by decide, C4_column_widths.1 [sampleShort, sampleLong] (by decide)⟩

/-- C5: the rendered report text is exactly: a banner line of `===`, 73
dashes and `===`; the header line of 26 spaces and
`... Statistics Collected ...`; the banner line again; a blank line; one row
per counter of the form value-field, one space, name-field, space-dash-space,
description, newline; and a trailing blank line.  The number of rows equals
the number of registered counters. -/
theorem C5_report_text (l : List Statistic) :
    (PrintStatisticsOS l).1 =
      ("===".toList ++ List.replicate 73 '-' ++ "===\n".toList)
        ++ (List.replicate 26 ' ' ++ "... Statistics Collected ...\n".toList)
        ++ ("===".toList ++ List.replicate 73 '-' ++ "===\n".toList)
        ++ ['\n']
        ++ ((sortStats l).map (fun s =>
              padLeft (MaxValLen l) (utostr s.Value) ++ [' ']
                ++ padRight (MaxNameLen l) s.Name ++ [' ', '-', ' ']
                ++ s.Desc ++ ['\n'])).flatten
        ++ ['\n'] ∧
    ((sortStats l).map (statRow (MaxValLen l) (MaxNameLen l))).length =
      l.length := by
  constructor
  · rfl
  · rw [List.length_map]
    exact (sortStats_perm l).length_eq

/-- C3: the table renderer's registry vector after the sort is ordered
ascending by the `(name, description)` comparator (no later row is strictly
below an earlier one), is a permutation of the input (all registered counters
appear), the sort is stable (two counters equal on both keys keep their
relative registration order), and rendering the same final state a second
time (the vector having been sorted in place by the first call) produces
byte-identical output. -/
theorem C3_sorted_stable_deterministic (l : List Statistic) :
    ((PrintStatisticsOS l).2).Pairwise (fun a b => statLt b a = false) ∧
    ((PrintStatisticsOS l).2).Perm l ∧
    (∀ a b : Statistic, a.Name = b.Name → a.Desc = b.Desc →
        [a, b].Sublist l → [a, b].Sublist (PrintStatisticsOS l).2) ∧
    (PrintStatisticsOS ((PrintStatisticsOS l).2)).1 =
      (PrintStatisticsOS l).1 := by
  have h2 : (PrintStatisticsOS l).2 = sortStats l := rfl
  refine ⟨?_, ?_, ?_, ?_⟩
  · rw [h2]
    exact (sortStats_sorted l).imp fun h => (statLe_iff_not_lt _ _).mp h
  · rw [h2]
    exact sortStats_perm l
  · intro a b hn hd hsub
    rw [h2]
    exact sortStats_stable_pair hn hd hsub
  · rw [h2]
    show (PrintStatisticsOS (sortStats l)).1 = (PrintStatisticsOS l).1
    simp only [PrintStatisticsOS]
    rw [MaxValLen_perm (sortStats_perm l), MaxNameLen_perm (sortStats_perm l),
      sortStats_idem]

/-- Witness for C3: two counters with equal name and description keep their
registration order in the sorted vector. -/
theorem C3_witness :
    sampleEq1.Name = sampleEq2.Name ∧ sampleEq1.Desc = sampleEq2.Desc ∧
    [sampleEq1, sampleEq2].Sublist [sampleEq1, sampleEq2] ∧
    [sampleEq1, sampleEq2].Sublist
      (PrintStatisticsOS [sampleEq1, sampleEq2]).2 :=
  ⟨rfl, rfl, List.Sublist.refl _,
   (C3_sorted_stable_deterministic [sampleEq1, sampleEq2]).2.2.1
     sampleEq1 sampleEq2 rfl rfl (List.Sublist.refl _)⟩

end LlvmCsv
